import Mathlib

/-!
Shallow embedding of the `another-day` work-log CLI (src/index.js, plus the
two earlier variants kept in the repository).  The embedding covers the
log-line codec (`split('|')` / `join('|')`), the date-range resolver
(`resolveDays` with its pattern-keyed dispatch), the per-day duration
calculator of the `show` action (both the current variant and the third
variant, which caps the open-ended entry at end of day), and the custom
self-resetting `Iterator` class.

Times are modelled as integers (milliseconds on a single UTC timeline, as
produced by moment's `valueOf`/`diff`); day keys as integers (days since
1970-01-01, the proleptic Gregorian calendar that moment implements);
JavaScript number arithmetic on durations as exact rationals (all values
reached are half-integers, where double arithmetic is exact);
`Math.round` as floor of `x + 1/2` (JS rounds half toward positive
infinity); a JS value that is `NaN` / an invalid moment as `none`.
-/

namespace AnotherDay

/-- Accumulator-based splitter: `splitCharAux sep cs acc` processes `cs`,
with `acc` holding the (reversed) characters of the current field.  This is
the semantics of JavaScript `String.prototype.split` with a single-character
separator: `""` splits to `[""]`, a trailing separator yields a trailing
empty field. -/
def splitCharAux (sep : Char) : List Char → List Char → List (List Char)
  | [], acc => [acc.reverse]
  | c :: cs, acc =>
    if c = sep then acc.reverse :: splitCharAux sep cs []
    else splitCharAux sep cs (c :: acc)

/-- JavaScript `s.split(sep)` for a one-character separator, on character
lists. -/
def splitChar (sep : Char) (cs : List Char) : List (List Char) :=
  splitCharAux sep cs []

/-- JavaScript `parts.join(sep)` for a one-character separator, on character
lists. -/
def joinChar (sep : Char) : List (List Char) → List Char
  | [] => []
  | [p] => p
  | p :: q :: ps => p ++ sep :: joinChar sep (q :: ps)

/-- JavaScript `entry.split('|')`, as used by the `show` action to decode a
log line into its fields. -/
def splitPipe (s : String) : List String :=
  (splitChar '|' s.data).map String.mk

/-- JavaScript `fields.join('|')`, as used by the `task` / `break` actions to
encode a log line. -/
def joinPipe (parts : List String) : String :=
  String.mk (joinChar '|' (parts.map String.data))

/-- JavaScript `data.split(os.EOL)` (the host platform's line terminator,
`"\n"` here), as used by the `show` action on a day file's text. -/
def splitLines (s : String) : List String :=
  (splitChar '\n' s.data).map String.mk

/-- Floor of a rational, computed as floor division of numerator by
denominator. -/
def ratFloor (q : ℚ) : ℤ :=
  Int.fdiv q.num q.den

/-- JavaScript `Math.max` on two (non-NaN) numbers, here on integers. -/
def jsMaxI (a b : ℤ) : ℤ :=
  if a ≤ b then b else a

/-- JavaScript `Math.round(duration.as('hours') * 2)` for a duration of `d`
milliseconds: the exact value rounded is `d / 3600000 * 2 = d / 1800000`
(doubles represent the tie points, multiples of one half, exactly), and JS
`Math.round` sends `x` to `⌊x + 1/2⌋`, so the result is
`⌊(2 * d + 1800000) / 3600000⌋`, written with integer floor division.
`roundHalves_eq_floor` below proves this equal to the rational formula. -/
def roundHalves (d : ℤ) : ℤ :=
  Int.fdiv (2 * d + 1800000) 3600000

/-- The adjusted duration of the `show` action in half-hour units:
`Math.max(Math.round(hours * 2) / 2, 0.5)` is `max(round, 1) / 2`. -/
def halfHours (d : ℤ) : ℤ :=
  jsMaxI (roundHalves d) 1

/-- JavaScript stringification of the duration numbers this program
produces (finite half-integers): an integer prints with no fractional part,
otherwise one digit `.5` is printed. -/
def fmtNum (q : ℚ) : String :=
  if q.den = 1 then toString q.num else toString (ratFloor q) ++ ".5"

/-- The displayed duration text `adjusted + 'h'`; an invalid (NaN) duration
prints as `"NaNh"`. -/
def durLabel (q? : Option ℚ) : String :=
  (match q? with
   | none => "NaN"
   | some q => fmtNum q) ++ "h"

/-- Value of a decimal digit character. -/
def digitVal (c : Char) : ℤ :=
  (c.toNat : ℤ) - 48

/-- Gregorian leap-year test (the calendar moment implements). -/
def isLeap (y : ℤ) : Bool :=
  Int.fmod y 4 == 0 && (Int.fmod y 100 != 0 || Int.fmod y 400 == 0)

/-- Number of days in a month of the proleptic Gregorian calendar. -/
def daysInMonth (y m : ℤ) : ℤ :=
  if m = 2 then (if isLeap y then 29 else 28)
  else if m = 4 ∨ m = 6 ∨ m = 9 ∨ m = 11 then 30
  else 31

/-- Days since 1970-01-01 of a proleptic Gregorian calendar date
(the day-number arithmetic underlying moment's date handling). -/
def daysFromCivil (y m d : ℤ) : ℤ :=
  let yy := if m ≤ 2 then y - 1 else y
  let era := Int.fdiv yy 400
  let yoe := yy - era * 400
  let mp := if m > 2 then m - 3 else m + 9
  let doy := Int.fdiv (153 * mp + 2) 5 + d - 1
  let doe := yoe * 365 + Int.fdiv yoe 4 - Int.fdiv yoe 100 + doy
  era * 146097 + doe - 719468

/-- Inverse of `daysFromCivil`: the `(year, month, day)` of a day number. -/
def civilFromDays (z : ℤ) : ℤ × ℤ × ℤ :=
  let z2 := z + 719468
  let era := Int.fdiv z2 146097
  let doe := z2 - era * 146097
  let yoe := Int.fdiv (doe - Int.fdiv doe 1460 + Int.fdiv doe 36524 - Int.fdiv doe 146096) 365
  let y := yoe + era * 400
  let doy := doe - (365 * yoe + Int.fdiv yoe 4 - Int.fdiv yoe 100)
  let mp := Int.fdiv (5 * doy + 2) 153
  let d := doy - Int.fdiv (153 * mp + 2) 5 + 1
  let m := if mp < 10 then mp + 3 else mp - 9
  (if m ≤ 2 then y + 1 else y, m, d)

/-- Zero-padding to two digits, as in moment's `MM` / `DD` format tokens. -/
def pad2 (n : ℤ) : String :=
  let s := toString n.toNat
  if s.length < 2 then "0" ++ s else s

/-- Zero-padding to four digits, as in moment's `YYYY` format token. -/
def pad4 (n : ℤ) : String :=
  let s := toString n.toNat
  String.mk (List.replicate (4 - s.length) '0') ++ s

/-- Moment's `format('YYYY-MM-DD')` on a day number: the day key used to
name a day's log file and to label its output. -/
def formatDay (z : ℤ) : String :=
  let c := civilFromDays z
  pad4 c.1 ++ "-" ++ pad2 c.2.1 ++ "-" ++ pad2 c.2.2

/-- Parse of a clock string by `moment.utc(day + ' ' + time)`, restricted to
the canonical `HH:mm:ss` shape the program itself writes; any other shape
stands for an invalid moment (`none`, the NaN path).  Returns milliseconds
into the day. -/
def parseClockMs (t : String) : Option ℤ :=
  match t.data with
  | [h1, h2, c1, m1, m2, c2, s1, s2] =>
    if (h1.isDigit && h2.isDigit && (c1 == ':') && m1.isDigit && m2.isDigit
        && (c2 == ':') && s1.isDigit && s2.isDigit) then
      let hh := 10 * digitVal h1 + digitVal h2
      let mm := 10 * digitVal m1 + digitVal m2
      let ss := 10 * digitVal s1 + digitVal s2
      if hh < 24 ∧ mm < 60 ∧ ss < 60 then
        some (((hh * 60 + mm) * 60 + ss) * 1000)
      else none
    else none
  | _ => none

/-- Test of the explicit date pattern `^[0-9]{4}-[0-9]{2}-[0-9]{2}$`
(the `dateFormat` regular expression of the source). -/
def matchesDatePattern (s : String) : Bool :=
  match s.data with
  | [y1, y2, y3, y4, c1, m1, m2, c2, d1, d2] =>
    y1.isDigit && y2.isDigit && y3.isDigit && y4.isDigit && (c1 == '-')
      && m1.isDigit && m2.isDigit && (c2 == '-') && d1.isDigit && d2.isDigit
  | _ => false

/-- Parse of a `YYYY-MM-DD` token by `moment.utc(token)`: the day number
when the token matches the pattern and denotes a real calendar date,
`none` (an invalid moment) otherwise. -/
def parseDayNum (s : String) : Option ℤ :=
  match s.data with
  | [y1, y2, y3, y4, c1, m1, m2, c2, d1, d2] =>
    if (y1.isDigit && y2.isDigit && y3.isDigit && y4.isDigit && (c1 == '-')
        && m1.isDigit && m2.isDigit && (c2 == '-') && d1.isDigit && d2.isDigit) then
      let y := 1000 * digitVal y1 + 100 * digitVal y2 + 10 * digitVal y3 + digitVal y4
      let m := 10 * digitVal m1 + digitVal m2
      let d := 10 * digitVal d1 + digitVal d2
      if 1 ≤ m ∧ m ≤ 12 ∧ 1 ≤ d ∧ d ≤ daysInMonth y m then
        some (daysFromCivil y m d)
      else none
    else none
  | _ => none

/-- JavaScript `new RegExp(dateFormat).test(x)` on a possibly-undefined
argument: `undefined` stringifies to `"undefined"`, which matches no
pattern of the dispatch table. -/
def jsTestDate (x : Option String) : Bool :=
  match x with
  | some s => matchesDatePattern s
  | none => false

/-- Start of the week containing day `z`, with Monday as the first day of
the week (the source sets the `sv` locale). -/
def weekStart (z : ℤ) : ℤ :=
  z - Int.fmod (z + 3) 7

/-- First day of the month containing day `z`. -/
def monthStart (z : ℤ) : ℤ :=
  let c := civilFromDays z
  daysFromCivil c.1 c.2.1 1

/-- Day numbers produced by moment-range's `range.by('days')` iterator: it
takes the absolute value of `start.diff(end, 'days')` and steps forward
from `start` that many times, inclusively — so a reversed range walks
forward from `start` rather than collapsing or going backwards. -/
def byDays (a b : ℤ) : List ℤ :=
  (List.range ((a - b).natAbs + 1)).map (fun i => a + (i : ℤ))

/-- The explicit-date resolver of `dateResolvers[dateFormat]`: the start
date is the first token; the end date is the second token when it also
matches the pattern, else the start date.  An invalid (pattern-matching but
non-existent) date gives an invalid moment, whose range iterates zero
times. -/
def explicitDays (s : String) (endArg : Option String) : List ℤ :=
  match parseDayNum s with
  | none => []
  | some a =>
    match (if jsTestDate endArg then endArg.bind parseDayNum else some a) with
    | none => []
    | some b => byDays a b

/-- The source's `resolveDays(startArg, endArg)`: dispatches on the first
matching key of `dateResolvers` (explicit date pattern, `yesterday`,
`week`, `month`, in insertion order), defaulting to a single-day range of
today, then formats each day of the range as `YYYY-MM-DD`.
`today` abstracts moment's "now" at day granularity. -/
def resolveDays (today : ℤ) (startArg endArg : Option String) : List String :=
  (match startArg with
   | none => byDays today today
   | some s =>
     if matchesDatePattern s then explicitDays s endArg
     else if s = "yesterday" then byDays (today - 1) (today - 1)
     else if s = "week" then byDays (weekStart today) today
     else if s = "month" then byDays (monthStart today) today
     else byDays today today).map formatDay

/-- One rendered output row of the `show` action: the duration label and
the project / id / task columns (padding and colour are presentation
only). -/
structure Row where
  timestamp : String
  project : String
  id : String
  task : String
deriving DecidableEq

/-- Instant (ms) of `moment.utc(day + ' ' + time)`: the day's start plus
the parsed clock, `none` when either part is invalid or the time field is
absent (`undefined` stringifies into an unparsable text). -/
def parseInstant (dayStart? : Option ℤ) (t? : Option String) : Option ℤ :=
  match dayStart?, t? with
  | some d, some t => (parseClockMs t).map (fun c => d + c)
  | _, _ => none

/-- The duration computation of the `show` action:
`Math.max(Math.round(duration.as('hours') * 2) / 2, 0.5)` where
`duration = endTime.diff(startTime)` in milliseconds, computed exactly in
half-hour units (see `roundHalves`) and returned as the rational number the
row displays.  `none` is the NaN value arising from an invalid moment
(`Math.max(NaN, 0.5)` is NaN).  `taskDuration_eq_formula` below proves the
value equal to the rational-arithmetic formula of the source. -/
def taskDuration (start? end? : Option ℤ) : Option ℚ :=
  match start?, end? with
  | some s, some e => some (mkRat (halfHours (e - s)) 2)
  | _, _ => none

/-- Row built by src/index.js for a non-break entry with fields `fields`
and raw lookahead line `next?` (`entries.peek()`): the end time is the next
line's second field when the lookahead is truthy, else the current
wall-clock `now`; an untruthy lookahead also prefixes the label with `~`.
The `show` loop only reaches this with at least five fields — a shorter
non-break line throws in the renderer before any row is built (see
`rowsMain`) — so the `getD` defaults below are never taken on a program
path. -/
def taskRowOf (dayStart? : Option ℤ) (now : ℤ) (fields : List String)
    (next? : Option String) : Row :=
  let start? := parseInstant dayStart? (fields.get? 1)
  let truthy : Bool :=
    match next? with
    | some s => !(s == "")
    | none => false
  let end? : Option ℤ :=
    match next? with
    | some s => if s = "" then some now else parseInstant dayStart? ((splitPipe s).get? 1)
    | none => some now
  { timestamp := (if truthy then "" else "~") ++ durLabel (taskDuration start? end?),
    project := fields.getD 2 "", id := fields.getD 4 "", task := fields.getD 3 "" }

/-- The per-day entry loop of the `show` action in src/index.js: empty
(falsy) lines and lines whose first field is `break` are skipped; every
other line with at least five fields produces a row via `taskRowOf`, with
one-line lookahead.  A non-break line with fewer than five fields leaves
`project`, `task` or `id` destructured as `undefined`, and `pad(undefined)`
in the render call throws a TypeError (the `pad` package calls
`text.toString()`): the per-day catch swallows it and abandons the
remaining lines of the day, so such a line yields no row and ends the
day's output.  Iterating `for (const entry of entries)` over the fresh
`Iterator` visits the lines in order, and `entries.peek()` inside the body
returns the line immediately after the current one. -/
def rowsMain (dayStart? : Option ℤ) (now : ℤ) : List String → List Row
  | [] => []
  | entry :: rest =>
    if entry = "" then rowsMain dayStart? now rest
    else if (splitPipe entry).getD 0 "" = "break" then rowsMain dayStart? now rest
    else if (splitPipe entry).length < 5 then []
    else taskRowOf dayStart? now (splitPipe entry) rest.head? :: rowsMain dayStart? now rest

/-- End time used by the third source variant for an open-ended entry:
`moment(day).endOf('day')` (23:59:59.999), replaced by the current time
when `moment() < endTime`. -/
def lastEndThird (dayStart? : Option ℤ) (now : ℤ) : Option ℤ :=
  match dayStart? with
  | some d => some (if now < d + 86399999 then now else d + 86399999)
  | none => none

/-- End time of an entry in the third source variant: the next line's
second field when the lookahead is truthy, else `lastEndThird`. -/
def thirdEnd (dayStart? : Option ℤ) (now : ℤ) (next? : Option String) : Option ℤ :=
  match next? with
  | some s => if s = "" then lastEndThird dayStart? now
              else parseInstant dayStart? ((splitPipe s).get? 1)
  | none => lastEndThird dayStart? now

/-- Row built by the third source variant for a non-break entry: no `~`
estimate marker is ever produced. -/
def thirdRowOf (dayStart? : Option ℤ) (now : ℤ) (fields : List String)
    (next? : Option String) : Row :=
  { timestamp := durLabel (taskDuration (parseInstant dayStart? (fields.get? 1))
      (thirdEnd dayStart? now next?)),
    project := fields.getD 2 "", id := fields.getD 4 "", task := fields.getD 3 "" }

/-- The per-day entry loop of the third source variant's `show` action:
as `rowsMain`, but an open-ended entry ends at `min(now, end of day)` and
no `~` estimate marker is ever produced.  Its render call has the same
`pad(project)` / `pad(id)` arguments, so a non-break line with fewer than
five fields likewise throws and abandons the remaining lines of the day. -/
def rowsThird (dayStart? : Option ℤ) (now : ℤ) : List String → List Row
  | [] => []
  | entry :: rest =>
    if entry = "" ∨ (splitPipe entry).getD 0 "" = "break" then rowsThird dayStart? now rest
    else if (splitPipe entry).length < 5 then []
    else thirdRowOf dayStart? now (splitPipe entry) rest.head? :: rowsThird dayStart? now rest

/-- The day-file store, abstracting the per-day text files: `readFile`
resolves with the file's text, or rejects (`none`) when the file is
missing. -/
def readStore (store : List (String × String)) (day : String) : Option String :=
  (store.find? (fun kv => kv.1 == day)).map (fun kv => kv.2)

/-- The day loop of the `show` action in src/index.js: for each resolved
day, read the day's file, split it into lines and render rows; a failed
read is caught and the loop continues with the next day. -/
def showMain (store : List (String × String)) (now : ℤ) (days : List String) : List Row :=
  days.flatMap (fun day =>
    match readStore store day with
    | none => []
    | some data => rowsMain ((parseDayNum day).map (fun d => d * 86400000)) now (splitLines data))

/-- The encoded line of a Task entry: `['task', time, project, task, id]`
joined with `'|'` (the `chunk` of the `task` action, without the trailing
`os.EOL`). -/
def encodeTaskLine (time project label id : String) : String :=
  joinPipe ["task", time, project, label, id]

/-- Serialization of the `--id` flag value by `Array.prototype.join`: the
flag is boolean, so the joined field is `"true"` when given and the empty
string (for `undefined`) when not. -/
def jsFlagField (b : Bool) : String :=
  if b then "true" else ""

/-- The log line the `task` action appends (without the trailing
`os.EOL`), with `cmd.id` the boolean `--id` flag. -/
def taskChunkLine (time project label : String) (idFlag : Bool) : String :=
  encodeTaskLine time project label (jsFlagField idFlag)

/-- The source's self-resetting iterator class: a cursor over a fixed list
of elements. -/
structure Iterator (α : Type) where
  elements : List α
  index : ℕ
deriving DecidableEq

/-- One step of the iteration protocol (`next()` of the object returned by
`[Symbol.iterator]()`): yields the current element and advances, or reports
done and silently resets the cursor to `0`. -/
def Iterator.next {α : Type} (it : Iterator α) : Option α × Iterator α :=
  if h : it.index < it.elements.length then
    (some (it.elements.get ⟨it.index, h⟩), ⟨it.elements, it.index + 1⟩)
  else
    (none, ⟨it.elements, 0⟩)

/-- The `peek()` method: the element at the cursor, without advancing
(`undefined` past the end). -/
def Iterator.peek {α : Type} (it : Iterator α) : Option α :=
  it.elements.get? it.index

/-- Fuelled driver of the iteration protocol: collects yielded elements
until `next` reports done (or fuel runs out), returning them together with
the iterator's final state. -/
def Iterator.drain {α : Type} : ℕ → Iterator α → List α × Iterator α
  | 0, it => ([], it)
  | n + 1, it =>
    match it.next with
    | (some a, it2) => ((a :: (Iterator.drain n it2).1), (Iterator.drain n it2).2)
    | (none, it2) => ([], it2)

/-! Helper lemmas about the split / join codec. -/

theorem splitCharAux_clean_front (sep : Char) (p : List Char) :
    ∀ (rest acc : List Char), sep ∉ p →
      splitCharAux sep (p ++ rest) acc = splitCharAux sep rest (p.reverse ++ acc) := by
  induction p with
  | nil => intro rest acc _; simp
  | cons c cs ih =>
    intro rest acc h
    have hc : ¬ c = sep := fun hc => h (by simp [hc])
    have hcs : sep ∉ cs := fun hm => h (List.mem_cons_of_mem _ hm)
    simp [splitCharAux, hc, ih rest (c :: acc) hcs, List.append_assoc]

theorem splitChar_joinChar (sep : Char) :
    ∀ (parts : List (List Char)), parts ≠ [] → (∀ p ∈ parts, sep ∉ p) →
      splitChar sep (joinChar sep parts) = parts := by
  intro parts
  induction parts with
  | nil => intro h _; exact absurd rfl h
  | cons p ps ih =>
    intro _ hmem
    have hp : sep ∉ p := hmem p (by simp)
    cases ps with
    | nil =>
      simp only [joinChar, splitChar]
      rw [show p = p ++ ([] : List Char) by simp, splitCharAux_clean_front sep p [] [] hp]
      simp [splitCharAux]
    | cons q ps2 =>
      have hmem2 : ∀ x ∈ q :: ps2, sep ∉ x := fun x hx => hmem x (List.mem_cons_of_mem _ hx)
      simp only [joinChar, splitChar]
      rw [splitCharAux_clean_front sep p (sep :: joinChar sep (q :: ps2)) [] hp]
      simp only [splitCharAux, if_pos rfl]
      rw [show splitCharAux sep (joinChar sep (q :: ps2)) [] = splitChar sep (joinChar sep (q :: ps2)) from rfl]
      rw [ih (by simp) hmem2]
      simp

theorem splitPipe_joinPipe (parts : List String) (hne : parts ≠ [])
    (h : ∀ p ∈ parts, '|' ∉ p.data) : splitPipe (joinPipe parts) = parts := by
  have hne2 : parts.map String.data ≠ [] := fun hm => hne (by simpa using hm)
  have h2 : ∀ cs ∈ parts.map String.data, '|' ∉ cs := by
    intro cs hcs
    obtain ⟨p, hp, rfl⟩ := List.mem_map.1 hcs
    exact h p hp
  show (splitChar '|' (String.mk (joinChar '|' (parts.map String.data))).data).map String.mk = parts
  rw [show (String.mk (joinChar '|' (parts.map String.data))).data
        = joinChar '|' (parts.map String.data) from rfl]
  rw [splitChar_joinChar '|' (parts.map String.data) hne2 h2]
  rw [List.map_map]
  exact List.map_id'' (fun s => rfl) parts

theorem splitPipe_encodeTaskLine (t p l i : String)
    (ht : '|' ∉ t.data) (hp : '|' ∉ p.data) (hl : '|' ∉ l.data) (hi : '|' ∉ i.data) :
    splitPipe (encodeTaskLine t p l i) = ["task", t, p, l, i] := by
  apply splitPipe_joinPipe _ (by simp)
  intro x hx
  simp only [List.mem_cons, List.not_mem_nil, or_false] at hx
  rcases hx with rfl | rfl | rfl | rfl | rfl
  · decide
  · exact ht
  · exact hp
  · exact hl
  · exact hi

theorem encodeTaskLine_ne_empty (t p l i : String) : encodeTaskLine t p l i ≠ "" := by
  intro h
  have h2 : (encodeTaskLine t p l i).data = [] := by rw [h]
  have h3 : (encodeTaskLine t p l i).data
      = "task".data ++ '|' :: joinChar '|' ([t, p, l, i].map String.data) := rfl
  rw [h3] at h2
  simp at h2

/-! Helper lemmas about the per-day row computation. -/

theorem rowsMain_cons_empty (dS : Option ℤ) (now : ℤ) (rest : List String) :
    rowsMain dS now ("" :: rest) = rowsMain dS now rest := by
  simp [rowsMain]

theorem rowsMain_cons_break (dS : Option ℤ) (now : ℤ) (entry : String) (rest : List String)
    (h : (splitPipe entry).getD 0 "" = "break") :
    rowsMain dS now (entry :: rest) = rowsMain dS now rest := by
  have hne : ¬ entry = "" := by
    intro he
    rw [he, show splitPipe "" = [""] from rfl] at h
    exact absurd h (by decide)
  have h2 : (splitPipe entry)[0]?.getD "" = "break" := by simpa [List.getD] using h
  simp [rowsMain, hne, h2]

theorem rowsMain_cons_row (dS : Option ℤ) (now : ℤ) (entry : String) (rest : List String)
    (hne : entry ≠ "") (hbr : (splitPipe entry).getD 0 "" ≠ "break")
    (hlen : 5 ≤ (splitPipe entry).length) :
    rowsMain dS now (entry :: rest)
      = taskRowOf dS now (splitPipe entry) rest.head? :: rowsMain dS now rest := by
  have h2 : ¬ (splitPipe entry)[0]?.getD "" = "break" := by simpa [List.getD] using hbr
  have h3 : ¬ (splitPipe entry).length < 5 := by omega
  simp [rowsMain, hne, h2, h3]

theorem rowsMain_cons_short (dS : Option ℤ) (now : ℤ) (entry : String) (rest : List String)
    (hne : entry ≠ "") (hbr : (splitPipe entry).getD 0 "" ≠ "break")
    (hlen : (splitPipe entry).length < 5) :
    rowsMain dS now (entry :: rest) = [] := by
  have h2 : ¬ (splitPipe entry)[0]?.getD "" = "break" := by simpa [List.getD] using hbr
  simp [rowsMain, hne, h2, hlen]

theorem taskRowOf_task_next (dS now ct : ℤ) (t p l i next : String)
    (hct : parseClockMs t = some ct) (hnext : next ≠ "") :
    taskRowOf (some dS) now ["task", t, p, l, i] (some next)
      = { timestamp := durLabel (taskDuration (some (dS + ct))
            (parseInstant (some dS) ((splitPipe next).get? 1))),
          project := p, id := i, task := l } := by
  simp [taskRowOf, parseInstant, hct, hnext]

theorem taskRowOf_task_last (dS now ct : ℤ) (t p l i : String)
    (hct : parseClockMs t = some ct) :
    taskRowOf (some dS) now ["task", t, p, l, i] none
      = { timestamp := "~" ++ durLabel (taskDuration (some (dS + ct)) (some now)),
          project := p, id := i, task := l } := by
  simp [taskRowOf, parseInstant, hct]

theorem rowsThird_cons_row (dS : Option ℤ) (now : ℤ) (entry : String) (rest : List String)
    (hne : entry ≠ "") (hbr : (splitPipe entry).getD 0 "" ≠ "break")
    (hlen : 5 ≤ (splitPipe entry).length) :
    rowsThird dS now (entry :: rest)
      = thirdRowOf dS now (splitPipe entry) rest.head? :: rowsThird dS now rest := by
  have h2 : ¬ (splitPipe entry)[0]?.getD "" = "break" := by simpa [List.getD] using hbr
  have h3 : ¬ (splitPipe entry).length < 5 := by omega
  simp [rowsThird, hne, h2, h3]

theorem thirdRowOf_task_last (dS now ct : ℤ) (t p l i : String)
    (hct : parseClockMs t = some ct) :
    thirdRowOf (some dS) now ["task", t, p, l, i] none
      = { timestamp := durLabel (taskDuration (some (dS + ct))
            (some (if now < dS + 86399999 then now else dS + 86399999))),
          project := p, id := i, task := l } := by
  simp [thirdRowOf, thirdEnd, lastEndThird, parseInstant, hct]

/-! Helper lemmas about the duration arithmetic. -/

theorem roundHalves_eq_floor (d : ℤ) :
    roundHalves d = ⌊((d : ℚ) / 3600000 * 2 + 1/2 : ℚ)⌋ := by
  unfold roundHalves
  rw [Int.fdiv_eq_ediv _ (by norm_num)]
  rw [show ((3600000 : ℤ)) = ((3600000 : ℕ) : ℤ) from rfl]
  rw [← Rat.floor_intCast_div_natCast (2 * d + 1800000) 3600000]
  congr 1
  push_cast
  field_simp
  ring

theorem taskDuration_eq_formula (s e : ℤ) :
    taskDuration (some s) (some e)
      = some (max ((⌊(((e - s : ℤ) : ℚ) / 3600000 * 2 + 1/2 : ℚ)⌋ : ℚ) / 2) (1/2)) := by
  have h1 : halfHours (e - s) = max (⌊(((e - s : ℤ) : ℚ) / 3600000 * 2 + 1/2 : ℚ)⌋) 1 := by
    unfold halfHours jsMaxI
    rw [roundHalves_eq_floor]
    exact (max_def _ _).symm
  show some ((mkRat (halfHours (e - s)) 2 : ℚ)) = _
  rw [Rat.mkRat_eq_div, h1]
  push_cast [Int.cast_max]
  rw [← max_div_div_right (by norm_num : (0 : ℚ) ≤ 2)]

/-! Helper lemmas about the date-range resolver. -/

theorem resolveDays_explicit (today : ℤ) (s e : String) (a b : ℤ)
    (hs : matchesDatePattern s = true) (ha : parseDayNum s = some a)
    (he : matchesDatePattern e = true) (hb : parseDayNum e = some b) :
    resolveDays today (some s) (some e)
      = (List.range ((a - b).natAbs + 1)).map (fun i => formatDay (a + (i : ℤ))) := by
  simp [resolveDays, hs, explicitDays, ha, jsTestDate, he, hb, byDays, List.map_map]

theorem resolveDays_explicit_single (today : ℤ) (s : String) (a : ℤ) (eo : Option String)
    (hs : matchesDatePattern s = true) (ha : parseDayNum s = some a)
    (hend : jsTestDate eo = false) :
    resolveDays today (some s) eo = [formatDay a] := by
  simp [resolveDays, hs, explicitDays, ha, hend, byDays, List.range_succ]

/-! Helper lemmas about the day loop of `show`. -/

theorem showMain_middle_missing (store : List (String × String)) (now : ℤ)
    (ds1 ds2 : List String) (d : String) (h : readStore store d = none) :
    showMain store now (ds1 ++ d :: ds2)
      = showMain store now ds1 ++ showMain store now ds2 := by
  simp [showMain, h]

/-! Helper lemma about draining the iterator. -/

theorem Iterator.drain_from {α : Type} (l : List α) :
    ∀ (k i : ℕ), i + k = l.length →
      Iterator.drain (k + 1) ⟨l, i⟩ = (l.drop i, ⟨l, 0⟩) := by
  intro k
  induction k with
  | zero =>
    intro i hi
    have hnl : ¬ i < l.length := by omega
    simp [Iterator.drain, Iterator.next, hnl, List.drop_length, show i = l.length by omega]
  | succ k ih =>
    intro i hi
    have hlt : i < l.length := by omega
    have hnext : Iterator.next ⟨l, i⟩ = (some (l.get ⟨i, hlt⟩), ⟨l, i + 1⟩) := by
      simp [Iterator.next, hlt]
    show Iterator.drain (k + 1 + 1) ⟨l, i⟩ = _
    rw [Iterator.drain, hnext]
    show (l.get ⟨i, hlt⟩ :: (Iterator.drain (k + 1) ⟨l, i + 1⟩).1,
        (Iterator.drain (k + 1) ⟨l, i + 1⟩).2) = _
    rw [ih (i + 1) (by omega)]
    rw [List.drop_eq_getElem_cons hlt]
    rfl

/-! The claims. -/

/-- C8: for every Task entry whose kind, time, project, label and id fields
contain no `'|'` separator character, decoding its encoded line (fields
joined by `'|'` in the order kind|time|project|label|id) reproduces the
entry's kind, time, project, label and id: splitting the joined line gives
back exactly the five fields. -/
theorem c8_encode_decode_roundtrip (t p l i : String)
    (ht : '|' ∉ t.data) (hp : '|' ∉ p.data) (hl : '|' ∉ l.data) (hi : '|' ∉ i.data) :
    splitPipe (encodeTaskLine t p l i) = ["task", t, p, l, i] :=
  splitPipe_encodeTaskLine t p l i ht hp hl hi

/-- Witness for C8 at a concrete Task entry. -/
theorem c8_witness :
    splitPipe (encodeTaskLine "08:30:00" "projX" "fix the build" "123")
      = ["task", "08:30:00", "projX", "fix the build", "123"] :=
  c8_encode_decode_roundtrip "08:30:00" "projX" "fix the build" "123"
    (by decide) (by decide) (by decide) (by decide)

/-- C10: for every invocation of the `task` command, the fifth (id) field
of the appended log line is either the empty string (the `undefined` flag
value serializes to empty in the join) or the literal string `"true"`
(the boolean `--id` flag); no other value — in particular no user-supplied
id string — is ever written there. -/
theorem c10_id_flag_field (time project label : String) (idFlag : Bool)
    (ht : '|' ∉ time.data) (hp : '|' ∉ project.data) (hl : '|' ∉ label.data) :
    (splitPipe (taskChunkLine time project label idFlag)).get? 4 = some (jsFlagField idFlag)
    ∧ ((splitPipe (taskChunkLine time project label idFlag)).get? 4 = some ""
       ∨ (splitPipe (taskChunkLine time project label idFlag)).get? 4 = some "true") := by
  have hflag : '|' ∉ (jsFlagField idFlag).data := by cases idFlag <;> decide
  have h := splitPipe_encodeTaskLine time project label (jsFlagField idFlag) ht hp hl hflag
  constructor
  · simp only [taskChunkLine]
    rw [h]
    rfl
  · simp only [taskChunkLine]
    rw [h]
    cases idFlag
    · left; rfl
    · right; rfl

/-- Witness for C10 at a concrete invocation with the flag given. -/
theorem c10_witness :
    (splitPipe (taskChunkLine "10:00:00" "projX" "write docs" true)).get? 4
        = some (jsFlagField true)
    ∧ ((splitPipe (taskChunkLine "10:00:00" "projX" "write docs" true)).get? 4 = some ""
       ∨ (splitPipe (taskChunkLine "10:00:00" "projX" "write docs" true)).get? 4 = some "true") :=
  c10_id_flag_field "10:00:00" "projX" "write docs" true (by decide) (by decide) (by decide)

/-- C9: the source's `Iterator`, once its iteration protocol reports done
(the cursor is at or past the end of the element list), resets the cursor
to index `0` instead of staying exhausted: `next` on any at-or-past-end
cursor yields done with the cursor back at `0`, a subsequent `peek` sees
the first element again, and fully draining a fresh iterator yields all its
elements and leaves the cursor at `0`, ready to re-iterate. -/
theorem c9_iterator_resets (α : Type) :
    (∀ (l : List α) (k : ℕ), Iterator.next ⟨l, l.length + k⟩ = (none, ⟨l, 0⟩))
    ∧ (∀ (l : List α) (k : ℕ), (Iterator.next ⟨l, l.length + k⟩).2.peek = l.get? 0)
    ∧ (∀ l : List α, Iterator.drain (l.length + 1) ⟨l, 0⟩ = (l, ⟨l, 0⟩)) := by
  have h1 : ∀ (l : List α) (k : ℕ), Iterator.next ⟨l, l.length + k⟩ = (none, ⟨l, 0⟩) := by
    intro l k
    have hnl : ¬ l.length + k < l.length := by omega
    simp [Iterator.next, hnl]
  refine ⟨h1, ?_, ?_⟩
  · intro l k
    rw [h1 l k]
    rfl
  · intro l
    simpa using Iterator.drain_from l l.length 0 (by omega)

/-- C2: for every Task entry with start `s` and resolved end `e` (in ms),
the displayed duration equals
`max(round((e - s in hours) * 2) / 2, 0.5)` (JS `Math.round` being
`⌊x + 1/2⌋`), is never below `0.5` (hence never zero or negative, also for
a zero-length or inverted interval), and concretely a 17-minute gap gives
`0.5` and a 46-minute gap gives `1`; the rendered rows label these `0.5h`
and `1h`. -/
theorem c2_duration_rounding :
    (∀ s e : ℤ, taskDuration (some s) (some e)
        = some (max ((⌊(((e - s : ℤ) : ℚ) / 3600000 * 2 + 1/2 : ℚ)⌋ : ℚ) / 2) (1/2)))
    ∧ (∀ (s e : ℤ) (q : ℚ), taskDuration (some s) (some e) = some q → 1/2 ≤ q)
    ∧ taskDuration (some 0) (some 1020000) = some (1/2)
    ∧ taskDuration (some 0) (some 2760000) = some 1
    ∧ taskDuration (some 1000) (some 0) = some (1/2)
    ∧ rowsMain (some 0) 36180000
        ["task|09:00:00|p|a|", "task|09:17:00|p|b|", "task|10:03:00|p|c|"]
        = [{ timestamp := "0.5h", project := "p", id := "", task := "a" },
           { timestamp := "1h", project := "p", id := "", task := "b" },
           { timestamp := "~0.5h", project := "p", id := "", task := "c" }] := by
  have hm : (mkRat 1 2 : ℚ) = 1/2 := by
    rw [Rat.mkRat_eq_div]; norm_num
  refine ⟨taskDuration_eq_formula, ?_, ?_, by decide, ?_, by decide⟩
  · intro s e q h
    rw [taskDuration_eq_formula] at h
    rw [← Option.some.inj h]
    exact le_max_right _ _
  · rw [← hm]; decide
  · rw [← hm]; decide

/-- Witness for C2's duration lower bound at a concrete 2-hour gap. -/
theorem c2_witness :
    taskDuration (some 0) (some 7200000) = some 2 ∧ (1/2 : ℚ) ≤ 2 :=
  ⟨by decide, c2_duration_rounding.2.1 0 7200000 2 (by decide)⟩

/-- C3: a Break entry produces no output row, and a Task entry's duration
runs from its own start to the immediately following line's recorded start
time, whatever that line's kind; the sequence
Task A\@09:00, Break\@09:30, Task B\@10:00 yields exactly one row for A with
duration 09:00→09:30 (0.5h), no row for the break, and a row for B. -/
theorem c3_break_absorption :
    (∀ (dS now ct : ℤ) (t p l i next : String) (rest : List String),
      '|' ∉ t.data → '|' ∉ p.data → '|' ∉ l.data → '|' ∉ i.data →
      parseClockMs t = some ct → next ≠ "" →
      rowsMain (some dS) now (encodeTaskLine t p l i :: next :: rest)
        = { timestamp := durLabel (taskDuration (some (dS + ct))
              (parseInstant (some dS) ((splitPipe next).get? 1))),
            project := p, id := i, task := l } :: rowsMain (some dS) now (next :: rest))
    ∧ (∀ (dS : Option ℤ) (now : ℤ) (entry : String) (rest : List String),
        (splitPipe entry).getD 0 "" = "break" →
        rowsMain dS now (entry :: rest) = rowsMain dS now rest)
    ∧ rowsMain (some 0) 36000000
        ["task|09:00:00|P|A|", "break|09:30:00", "task|10:00:00|P|B|"]
        = [{ timestamp := "0.5h", project := "P", id := "", task := "A" },
           { timestamp := "~0.5h", project := "P", id := "", task := "B" }] := by
  refine ⟨?_, rowsMain_cons_break, by decide⟩
  intro dS now ct t p l i next rest ht hp hl hi hct hnext
  have hsplit := splitPipe_encodeTaskLine t p l i ht hp hl hi
  have hne := encodeTaskLine_ne_empty t p l i
  have hbr : (splitPipe (encodeTaskLine t p l i)).getD 0 "" ≠ "break" := by
    rw [hsplit]
    exact (by decide : ¬ ("task" : String) = "break")
  have hlen : 5 ≤ (splitPipe (encodeTaskLine t p l i)).length := by
    rw [hsplit]; simp
  rw [rowsMain_cons_row _ _ _ _ hne hbr hlen, hsplit]
  rw [show (next :: rest).head? = some next from rfl]
  rw [taskRowOf_task_next dS now ct t p l i next hct hnext]

/-- Witness for C3's lookahead rule: a task followed by a break line. -/
theorem c3_witness :
    rowsMain (some 0) 99 [encodeTaskLine "09:00:00" "P" "A" "", "break|09:30:00"]
      = { timestamp := durLabel (taskDuration (some (0 + 32400000))
            (parseInstant (some 0) ((splitPipe "break|09:30:00").get? 1))),
          project := "P", id := "", task := "A" } :: rowsMain (some 0) 99 ["break|09:30:00"] :=
  c3_break_absorption.1 0 99 32400000 "09:00:00" "P" "A" "" "break|09:30:00" []
    (by decide) (by decide) (by decide) (by decide) (by decide) (by decide)

/-- C1 (amended): for the last entry of a day's file, src/index.js always
uses the current wall-clock time as the end — also for a past day — and
prefixes the label with `~`; the third source variant computes the end as
the claim states (current time when it precedes the day's end, else the
day's end 23:59:59.999) but produces no `~` prefix at all. -/
theorem c1_open_ended_semantics :
    (∀ (d now ct : ℤ) (t p l i : String),
      '|' ∉ t.data → '|' ∉ p.data → '|' ∉ l.data → '|' ∉ i.data →
      parseClockMs t = some ct →
      rowsMain (some d) now [encodeTaskLine t p l i]
        = [{ timestamp := "~" ++ durLabel (taskDuration (some (d + ct)) (some now)),
             project := p, id := i, task := l }])
    ∧ (∀ (d now ct : ℤ) (t p l i : String),
      '|' ∉ t.data → '|' ∉ p.data → '|' ∉ l.data → '|' ∉ i.data →
      parseClockMs t = some ct →
      rowsThird (some d) now [encodeTaskLine t p l i]
        = [{ timestamp := durLabel (taskDuration (some (d + ct))
               (some (if now < d + 86399999 then now else d + 86399999))),
             project := p, id := i, task := l }]) := by
  constructor
  · intro d now ct t p l i ht hp hl hi hct
    have hsplit := splitPipe_encodeTaskLine t p l i ht hp hl hi
    have hne := encodeTaskLine_ne_empty t p l i
    have hbr : (splitPipe (encodeTaskLine t p l i)).getD 0 "" ≠ "break" := by
      rw [hsplit]
      exact (by decide : ¬ ("task" : String) = "break")
    have hlen : 5 ≤ (splitPipe (encodeTaskLine t p l i)).length := by
      rw [hsplit]; simp
    rw [rowsMain_cons_row _ _ _ _ hne hbr hlen, hsplit]
    rw [show (([] : List String)).head? = (none : Option String) from rfl]
    rw [taskRowOf_task_last d now ct t p l i hct]
    rfl
  · intro d now ct t p l i ht hp hl hi hct
    have hsplit := splitPipe_encodeTaskLine t p l i ht hp hl hi
    have hne := encodeTaskLine_ne_empty t p l i
    have hbr : (splitPipe (encodeTaskLine t p l i)).getD 0 "" ≠ "break" := by
      rw [hsplit]
      exact (by decide : ¬ ("task" : String) = "break")
    have hlen : 5 ≤ (splitPipe (encodeTaskLine t p l i)).length := by
      rw [hsplit]; simp
    rw [rowsThird_cons_row _ _ _ _ hne hbr hlen, hsplit]
    rw [show (([] : List String)).head? = (none : Option String) from rfl]
    rw [thirdRowOf_task_last d now ct t p l i hct]
    rfl

/-- Counterexample to C1 as stated: for a past day (day 0, with `now` on
the following day at 09:00), src/index.js ends the open entry at `now`
(duration 24h), not at the day's 23:59:59 (which would give 15h); and the
third variant, which does end it at the day's end (15h), prints no `~`
estimate prefix. -/
theorem c1_counterexample :
    (rowsMain (some 0) 118800000 ["task|09:00:00|p|t|"]).map Row.timestamp = ["~24h"]
    ∧ (rowsMain (some 0) 118800000 ["task|09:00:00|p|t|"]).map Row.timestamp ≠ ["~15h"]
    ∧ (rowsThird (some 0) 172800000 ["task|09:00:00|p|t|"]).map Row.timestamp = ["15h"]
    ∧ (rowsThird (some 0) 172800000 ["task|09:00:00|p|t|"]).map Row.timestamp ≠ ["~15h"] := by
  decide

/-- Witness for C1 at a concrete open-ended entry. -/
theorem c1_witness :
    rowsMain (some 0) 50000000 [encodeTaskLine "09:00:00" "p" "w" ""]
      = [{ timestamp := "~" ++ durLabel (taskDuration (some (0 + 32400000)) (some 50000000)),
           project := "p", id := "", task := "w" }]
    ∧ rowsThird (some 0) 200000000 [encodeTaskLine "09:00:00" "p" "w" ""]
      = [{ timestamp := durLabel (taskDuration (some (0 + 32400000))
             (some (if (200000000 : ℤ) < 0 + 86399999 then 200000000 else 0 + 86399999))),
           project := "p", id := "", task := "w" }] :=
  ⟨c1_open_ended_semantics.1 0 50000000 32400000 "09:00:00" "p" "w" ""
     (by decide) (by decide) (by decide) (by decide) (by decide),
   c1_open_ended_semantics.2 0 200000000 32400000 "09:00:00" "p" "w" ""
     (by decide) (by decide) (by decide) (by decide) (by decide)⟩

/-- C6 (amended): the show loop skips only empty lines and lines whose
first field is exactly `break`; a nonempty line with any other first field
— recognized or not — is treated as a task, not as malformed.  If it has at
least five fields it produces an output row and processing continues with
the remaining lines; if it has fewer than five fields, no row is printed
and the renderer's TypeError on the undefined field (thrown by
`pad(undefined)`) aborts processing of the remaining lines of that day,
while later days of the range still proceed. -/
theorem c6_kind_dispatch :
    (∀ (dS : Option ℤ) (now : ℤ) (entry : String) (rest : List String),
      entry ≠ "" → (splitPipe entry).getD 0 "" ≠ "break" →
      5 ≤ (splitPipe entry).length →
      rowsMain dS now (entry :: rest)
        = taskRowOf dS now (splitPipe entry) rest.head? :: rowsMain dS now rest)
    ∧ (∀ (dS : Option ℤ) (now : ℤ) (entry : String) (rest : List String),
      entry ≠ "" → (splitPipe entry).getD 0 "" ≠ "break" →
      (splitPipe entry).length < 5 →
      rowsMain dS now (entry :: rest) = [])
    ∧ (∀ (dS : Option ℤ) (now : ℤ) (rest : List String),
        rowsMain dS now ("" :: rest) = rowsMain dS now rest)
    ∧ (rowsMain (some 0) 0 ["xxx|09:00:00|p|t|i", "task|10:00:00|p|u|"]).length = 2
    ∧ showMain [("2018-06-15", "xxx|09:00:00\ntask|10:00:00|p|u|\n"),
                ("2018-06-16", "task|09:00:00|p|a|\n")]
        1529143200000 ["2018-06-15", "2018-06-16"]
        = [{ timestamp := "~1h", project := "p", id := "", task := "a" }] :=
  ⟨rowsMain_cons_row, rowsMain_cons_short, rowsMain_cons_empty, by decide, by decide⟩

/-- Counterexample to C6 as stated: a five-field line with the
unrecognized kind `xxx` is not skipped — it produces an output row; and a
malformed two-field line is not skipped-and-continued either — it aborts
the rest of the day, so the well-formed task line after it yields no
row. -/
theorem c6_counterexample :
    rowsMain (some 0) 0 ["xxx|09:00:00|p|t|i"] ≠ []
    ∧ rowsMain (some 0) 0 ["xxx|09:00:00", "task|10:00:00|p|u|"] = [] := by
  decide

/-- Witness for C6 at a concrete unrecognized-kind line and a concrete
short line. -/
theorem c6_witness :
    (rowsMain (some 0) 0 ["foo|09:00:00|p|t|i"]
      = taskRowOf (some 0) 0 (splitPipe "foo|09:00:00|p|t|i") (([] : List String)).head?
          :: rowsMain (some 0) 0 [])
    ∧ rowsMain (some 0) 0 ["bar|10:00:00", "task|11:00:00|p|w|"] = [] :=
  ⟨c6_kind_dispatch.1 (some 0) 0 "foo|09:00:00|p|t|i" [] (by decide) (by decide) (by decide),
   c6_kind_dispatch.2.1 (some 0) 0 "bar|10:00:00" ["task|11:00:00|p|w|"]
     (by decide) (by decide) (by decide)⟩

/-- C4: when both tokens match the explicit date pattern (and the first is
not later than the second), `resolveDays` returns the inclusive ascending
sequence of day keys from the first date to the second, one per calendar
day, formatted `YYYY-MM-DD`; when only the start token matches, it returns
exactly that single day. -/
theorem c4_explicit_range_resolution :
    (∀ (today : ℤ) (s e : String) (a b : ℤ), matchesDatePattern s = true →
      parseDayNum s = some a → matchesDatePattern e = true → parseDayNum e = some b →
      a ≤ b →
      resolveDays today (some s) (some e)
        = (List.range ((b - a).toNat + 1)).map (fun i => formatDay (a + (i : ℤ))))
    ∧ (∀ (today : ℤ) (s : String) (a : ℤ) (eo : Option String),
        matchesDatePattern s = true → parseDayNum s = some a → jsTestDate eo = false →
        resolveDays today (some s) eo = [formatDay a])
    ∧ resolveDays 0 (some "2018-06-15") (some "2018-06-17")
        = ["2018-06-15", "2018-06-16", "2018-06-17"]
    ∧ resolveDays 0 (some "2018-06-15") none = ["2018-06-15"] := by
  refine ⟨?_, resolveDays_explicit_single, by decide, by decide⟩
  intro today s e a b hs ha he hb hab
  rw [resolveDays_explicit today s e a b hs ha he hb]
  have hn : (a - b).natAbs = (b - a).toNat := by omega
  rw [hn]

/-- Witness for C4 at the concrete range 2018-06-15 … 2018-06-17. -/
theorem c4_witness :
    resolveDays 5 (some "2018-06-15") (some "2018-06-17")
      = (List.range (((17699 : ℤ) - 17697).toNat + 1)).map
          (fun i => formatDay (17697 + (i : ℤ))) :=
  c4_explicit_range_resolution.1 5 "2018-06-15" "2018-06-17" 17697 17699
    (by decide) (by decide) (by decide) (by decide) (by decide)

/-- C5 (amended): when the end date is strictly earlier than the start
date, `resolveDays` does not collapse the range to the start day; it never
throws, and returns `|start − end| + 1` day keys counting forward
(ascending) from the start day, because moment-range's `by('days')` takes
the absolute value of the difference. -/
theorem c5_reversed_range_forward :
    (∀ (today : ℤ) (s e : String) (a b : ℤ), matchesDatePattern s = true →
      parseDayNum s = some a → matchesDatePattern e = true → parseDayNum e = some b →
      b < a →
      resolveDays today (some s) (some e)
        = (List.range ((a - b).toNat + 1)).map (fun i => formatDay (a + (i : ℤ))))
    ∧ resolveDays 0 (some "2018-06-17") (some "2018-06-15")
        = ["2018-06-17", "2018-06-18", "2018-06-19"] := by
  refine ⟨?_, by decide⟩
  intro today s e a b hs ha he hb hab
  rw [resolveDays_explicit today s e a b hs ha he hb]
  have hn : (a - b).natAbs = (a - b).toNat := by omega
  rw [hn]

/-- Counterexample to C5 as stated: the reversed range 2018-06-17 …
2018-06-15 is not the single start day. -/
theorem c5_counterexample :
    resolveDays 0 (some "2018-06-17") (some "2018-06-15") ≠ ["2018-06-17"] := by
  decide

/-- Witness for C5 at the concrete reversed range. -/
theorem c5_witness :
    resolveDays 5 (some "2018-06-17") (some "2018-06-15")
      = (List.range (((17699 : ℤ) - 17697).toNat + 1)).map
          (fun i => formatDay (17699 + (i : ℤ))) :=
  c5_reversed_range_forward.1 5 "2018-06-17" "2018-06-15" 17699 17697
    (by decide) (by decide) (by decide) (by decide) (by decide)

/-- C7: a day of the resolved range whose file is missing contributes no
rows and does not stop later days from being processed; a 3-day range with
the middle day's file absent yields the rows of day 1 followed by the rows
of day 3. -/
theorem c7_missing_day_skipped :
    (∀ (store : List (String × String)) (now : ℤ) (ds1 ds2 : List String) (d : String),
      readStore store d = none →
      showMain store now (ds1 ++ d :: ds2)
        = showMain store now ds1 ++ showMain store now ds2)
    ∧ showMain [("2018-06-15", "task|09:00:00|p|a|\n"), ("2018-06-17", "task|08:00:00|q|b|\n")]
        1529056800000 ["2018-06-15", "2018-06-16", "2018-06-17"]
        = [{ timestamp := "~1h", project := "p", id := "", task := "a" },
           { timestamp := "~0.5h", project := "q", id := "", task := "b" }] :=
  ⟨showMain_middle_missing, by decide⟩

/-- Witness for C7 at a concrete missing middle day. -/
theorem c7_witness :
    readStore [("2018-06-15", "task|09:00:00|p|a|\n")] "2018-06-16" = none
    ∧ showMain [("2018-06-15", "task|09:00:00|p|a|\n")] 0
        (["2018-06-15"] ++ "2018-06-16" :: ["2018-06-15"])
      = showMain [("2018-06-15", "task|09:00:00|p|a|\n")] 0 ["2018-06-15"]
          ++ showMain [("2018-06-15", "task|09:00:00|p|a|\n")] 0 ["2018-06-15"] :=
  ⟨by decide,
   c7_missing_day_skipped.1 [("2018-06-15", "task|09:00:00|p|a|\n")] 0
     ["2018-06-15"] ["2018-06-15"] "2018-06-16" (by decide)⟩

end AnotherDay
